import Mathlib

/-!
Verification of the Attune focus-tracking backend (`src/backend`).

Shallow embedding conventions:
* timestamps are whole seconds (`Nat`); duration arithmetic that Python does
  on `datetime` differences is carried out on the integer images (`Int`/`ℚ`);
* Python strings are `List Char`; `str.strip()` is `pyStrip`,
  `str.split('\n', 1)` is `splitOnceNL`, `str.upper()` maps `Char.toUpper`;
* fallible external calls (the Qwen vision model, the Claude text model) are
  an `Option`-valued input of the embedded function: `none` is a raised
  exception, `some reply` a successful reply with the given text;
* the SQLite store is explicit data: rows are structure values, writes are
  either returned lists of `DbWrite` events or a `Store` update.
-/

namespace Attune

/-- A persisted per-screenshot judgment, one row of the `screenshot_analyses`
table (`database.py` lines 84-93): timestamp, `focused` flag, explanation. -/
structure Judg where
  ts : Nat
  focused : Bool
  expl : List Char
deriving DecidableEq

/-- A closed focus interval, one row of the `intervals` table
(`database.py` lines 61-70). -/
structure Interval where
  tstart : Nat
  tend : Nat
  focused : Bool
deriving DecidableEq

/-! ## Interval tracker (`monitor.py`) -/

/-- One judgment through the interval tracker: the `current_interval_*`
update of `FocusMonitor.monitor_loop` (monitor.py lines 189-196) together
with `handle_interval_change` (lines 124-137).  The state is the open
interval (its start timestamp and focus flag, `none` before the first
sample) paired with the intervals persisted so far, in write order. -/
def trackerStep (s : Option (Nat × Bool) × List Interval) (j : Judg) :
    Option (Nat × Bool) × List Interval :=
  match s.1 with
  | none => (some (j.ts, j.focused), s.2)
  | some (t0, f0) =>
    if f0 ≠ j.focused then (some (j.ts, j.focused), s.2 ++ [⟨t0, j.ts, f0⟩])
    else s

/-- All intervals persisted for a judgment stream once the session
terminates at time `now`: the loop feeds every judgment to `trackerStep`
and the `finally` block (monitor.py lines 232-240) closes the still-open
interval with `end = now`. -/
def closedIntervals (js : List Judg) (now : Nat) : List Interval :=
  match js.foldl trackerStep (none, []) with
  | (none, closed) => closed
  | (some (t0, f0), closed) => closed ++ [⟨t0, now, f0⟩]

/-- Run-length encoding of a judgment stream into intervals, written from the
spec's wording (spec.md §4.2, §8): given an open run that started at `t0` in
state `f0`, a judgment in the same state extends the run, a judgment in the
other state closes the run at that judgment's timestamp and opens a new one,
and the final run closes at `now`. -/
def rleFrom (t0 : Nat) (f0 : Bool) : List Judg → Nat → List Interval
  | [], now => [⟨t0, now, f0⟩]
  | j :: js, now =>
    if j.focused = f0 then rleFrom t0 f0 js now
    else ⟨t0, j.ts, f0⟩ :: rleFrom j.ts j.focused js now

/-- Run-length encoding of a whole judgment stream (spec side): the first
judgment opens the first run; an empty stream has no intervals. -/
def rleIntervals : List Judg → Nat → List Interval
  | [], _ => []
  | j :: js, now => rleFrom j.ts j.focused js now

/-! ## Nudge policy (`monitor.py`) -/

/-- The nudge threshold `consecutive_distractions_for_nudge`
(monitor.py line 36). -/
def consecutiveDistractionsForNudge : Nat := 3

/-- Nudge-policy state: the consecutive-distraction counter and the number
of nudges sent (monitor.py lines 30-31). -/
structure NudgeState where
  consecutive : Nat
  sent : Nat
deriving DecidableEq

/-- One judgment through the nudge policy (monitor.py lines 198-219):
a focused judgment resets the counter; a distracted one increments it and,
when it reaches the threshold, sends a nudge and resets it.  Returns the new
state and whether a nudge fired at this judgment. -/
def nudgeStep (st : NudgeState) (focused : Bool) : NudgeState × Bool :=
  if focused then (⟨0, st.sent⟩, false)
  else
    let c := st.consecutive + 1
    if consecutiveDistractionsForNudge ≤ c then (⟨0, st.sent + 1⟩, true)
    else (⟨c, st.sent⟩, false)

/-- The fired-nudge trace of a judgment stream: entry `i` tells whether a
nudge fired at judgment `i`. -/
def nudgeTrace : NudgeState → List Bool → List Bool
  | _, [] => []
  | st, f :: fs =>
    let r := nudgeStep st f
    r.2 :: nudgeTrace r.1 fs

/-- Modelled from the spec's wording of the nudge policy (spec.md §4.3):
the state is the count of consecutive distracted judgments since the last
reset; a nudge fires exactly when the count reaches the threshold, and the
count resets to 0 after each nudge and on every focused judgment. -/
def nudgeStepSpec (c : Nat) (focused : Bool) : Nat × Bool :=
  if focused then (0, false)
  else if c + 1 = consecutiveDistractionsForNudge then (0, true)
  else (c + 1, false)

/-- Spec-side fired-nudge trace. -/
def nudgeTraceSpec : Nat → List Bool → List Bool
  | _, [] => []
  | c, f :: fs =>
    let r := nudgeStepSpec c f
    r.2 :: nudgeTraceSpec r.1 fs

/-! ## Sample classifier (`monitor.py`, `analyze_with_claude`) -/

/-- Python `str.strip()` on a character list: drop leading and trailing
whitespace. -/
def pyStrip (l : List Char) : List Char :=
  ((l.dropWhile Char.isWhitespace).reverse.dropWhile Char.isWhitespace).reverse

/-- Python `str.split('\n', 1)`: the text before the first newline, and the
text after it when a newline exists. -/
def splitOnceNL : List Char → List Char × Option (List Char)
  | [] => ([], none)
  | c :: cs =>
    if c = '\n' then ([], some cs)
    else
      let r := splitOnceNL cs
      (c :: r.1, r.2)

/-- The reply parsing of `FocusMonitor.analyze_with_claude`
(monitor.py lines 108-113): strip the reply, split it at the first newline,
uppercase the stripped first line as the classification, and strip the
remainder (empty when there is none) as the explanation.  Python's
`str.upper()` is modelled per character by `Char.toUpper`. -/
def analyzeWithClaudeParse (reply : List Char) : List Char × List Char :=
  let result := pyStrip reply
  let lines := splitOnceNL result
  let classification := (pyStrip lines.1).map Char.toUpper
  let explanation :=
    match lines.2 with
    | some r => pyStrip r
    | none => []
  (classification, explanation)

/-- The `focused` flag derived from a classification string
(monitor.py line 179): Python `"FOCUSED" in classification`. -/
def isFocusedLabel (classification : List Char) : Bool :=
  decide ("FOCUSED".data <:+: classification)

/-! ## Monitoring loop tick (`monitor.py`, `monitor_loop`) -/

/-- In-memory monitor state across ticks (monitor.py lines 29-33). -/
structure MonitorState where
  currentIntervalStart : Option Nat
  currentIntervalFocused : Option Bool
  consecutiveDistractions : Nat
  nudgesSent : Nat
deriving DecidableEq

/-- The monitor state at construction (monitor.py lines 29-36). -/
def initialMonitorState : MonitorState := ⟨none, none, 0, 0⟩

/-- A database write performed during one tick. -/
inductive DbWrite
  | analysisW (ts : Nat) (focused : Bool) (explanation : List Char)
  | intervalW (tstart tend : Nat) (focused : Bool)
  | nudgeW (reason : List Char)
deriving DecidableEq

/-- One tick of `FocusMonitor.monitor_loop` (monitor.py lines 159-219) after
the session-active check: `description` is the Qwen stage's result (`none` on
error, the stripped description text on success) and `claudeReply` the Claude
stage's raw reply (`none` on error).  Python's truthiness tests
`if description:` and `if classification:` skip the tick on `None` and on the
empty string alike.  Returns the new state and the database writes of the
tick, in write order.  (The notification fired together with a nudge is not a
store write and is outside this model.) -/
def monitorTick (st : MonitorState) (ts : Nat) (description : Option (List Char))
    (claudeReply : Option (List Char)) : MonitorState × List DbWrite :=
  match description with
  | none => (st, [])
  | some d =>
    if d.isEmpty then (st, [])
    else
      match claudeReply with
      | none => (st, [])
      | some reply =>
        let parsed := analyzeWithClaudeParse reply
        let classification := parsed.1
        let explanation := parsed.2
        if classification.isEmpty then (st, [])
        else
          let focused := isFocusedLabel classification
          let w0 := [DbWrite.analysisW ts focused explanation]
          let ivr :
              (Option Nat × Option Bool) × List DbWrite :=
            match st.currentIntervalFocused with
            | none => ((some ts, some focused), [])
            | some f =>
              if f ≠ focused then
                match st.currentIntervalStart with
                | some s0 => ((some ts, some focused), [DbWrite.intervalW s0 ts f])
                | none => ((some ts, some focused), [])
              else ((st.currentIntervalStart, some f), [])
          let ndg : (Nat × Nat) × List DbWrite :=
            if focused then ((0, st.nudgesSent), [])
            else
              let c := st.consecutiveDistractions + 1
              if consecutiveDistractionsForNudge ≤ c then
                ((0, st.nudgesSent + 1),
                 [DbWrite.nudgeW ("Consecutive distractions detected: ".data
                    ++ explanation)])
              else ((c, st.nudgesSent), [])
          (⟨ivr.1.1, ivr.1.2, ndg.1.1, ndg.1.2⟩, w0 ++ ivr.2 ++ ndg.2)

/-! ## Session aggregation: durations and focus percentage -/

/-- Duration estimate for the last judgment in
`FocusMonitor.get_session_summary` (monitor.py line 275): the screenshot
interval when positive, otherwise 30 seconds.
`SessionAnalyzer.analyze_and_end_session` (analysis.py lines 250-251) and
the serving layer (app.py lines 224-225) use the constant 30, which equals
`lastDurationEstimate 0`. -/
def lastDurationEstimate (screenshotInterval : Nat) : Int :=
  if screenshotInterval > 0 then (screenshotInterval : Int) else 30

/-- Per-judgment inferred durations (monitor.py lines 266-275, analysis.py
lines 243-251): judgment `i` lasts until judgment `i+1`, the last judgment
lasts `lastEstimate`.  Each duration is paired with the judgment's focus
flag. -/
def judgDurations (lastEstimate : Int) : List Judg → List (Int × Bool)
  | [] => []
  | [a] => [(lastEstimate, a.focused)]
  | a :: b :: rest =>
    ((b.ts : Int) - (a.ts : Int), a.focused) ::
      judgDurations lastEstimate (b :: rest)

/-- Accumulation of the durations into productive / not-productive seconds
(monitor.py lines 263-280, analysis.py lines 242-256). -/
def sessionTimes (lastEstimate : Int) (js : List Judg) : Int × Int :=
  (judgDurations lastEstimate js).foldl
    (fun acc d => if d.2 then (acc.1 + d.1, acc.2) else (acc.1, acc.2 + d.1))
    (0, 0)

/-- `focus_percentage` (monitor.py lines 282-283, analysis.py
lines 258-259). -/
def focusPercentage (p np : Int) : ℚ :=
  if 0 < p + np then (p : ℚ) / ((p + np : Int) : ℚ) * 100 else 0

/-- The summary dictionary of `FocusMonitor.get_session_summary`. -/
structure SessionSummary where
  productiveTime : Int
  notProductiveTime : Int
  focusPercent : ℚ
  nudgesReceived : Nat
deriving DecidableEq

/-- `FocusMonitor.get_session_summary` (monitor.py lines 248-290), with the
session's judgments and nudges, read from the store in the source, passed as
inputs. -/
def getSessionSummary (screenshotInterval : Nat) (js : List Judg)
    (nudges : List (List Char)) : SessionSummary :=
  if js.isEmpty then ⟨0, 0, 0, nudges.length⟩
  else
    let times := sessionTimes (lastDurationEstimate screenshotInterval) js
    ⟨times.1, times.2, focusPercentage times.1 times.2, nudges.length⟩

/-! ## Distraction breakdown (`analysis.py`, `analyze_distractions`) -/

/-- Consecutive timestamp differences over the full judgment list
(analysis.py lines 82-83). -/
def timeDiffs : List Judg → List ℚ
  | a :: b :: rest => ((b.ts : ℚ) - (a.ts : ℚ)) :: timeDiffs (b :: rest)
  | _ => []

/-- The average inter-screenshot interval (analysis.py lines 79-86),
computed over all judgments of the session, focused and distracted alike;
30 seconds when the session has fewer than two judgments (the inner
`if time_diffs else 30` branch of the source is unreachable and kept as
written). -/
def avgInterval (js : List Judg) : ℚ :=
  if 1 < js.length then
    let diffs := timeDiffs js
    if diffs.isEmpty then 30 else diffs.sum / (diffs.length : ℚ)
  else 30

/-- Python `int(x)` on a float: truncation toward zero. -/
def pyInt (q : ℚ) : Int := if 0 ≤ q then ⌊q⌋ else -⌊-q⌋

/-- `SessionAnalyzer.analyze_distractions` (analysis.py lines 55-132), the
Claude call abstracted: `service` is `none` when the call or the JSON
parsing of its reply raises, otherwise the parsed category→seconds mapping.
Returns the mapping together with a flag recording whether the text service
was invoked (the source returns before building the prompt when there is no
distracted judgment). -/
def analyzeDistractions (js : List Judg)
    (service : Option (List (String × Int))) : List (String × Int) × Bool :=
  let distracted := js.filter fun a => !a.focused
  if distracted.isEmpty then ([], false)
  else
    match service with
    | some m => (m, true)
    | none =>
      ([("General distraction",
          (distracted.length : Int) * pyInt (avgInterval js))], true)

/-! ## Session records and the end-session operation
(`database.py`, `analysis.py`) -/

/-- Python `str.strip(ch)`: drop leading and trailing copies of one
character (used with `"` and `'` by `generate_session_title`,
analysis.py line 48). -/
def pyStripChar (ch : Char) (l : List Char) : List Char :=
  ((l.dropWhile fun c => c = ch).reverse.dropWhile fun c => c = ch).reverse

/-- `SessionAnalyzer.generate_session_title` (analysis.py lines 22-53) with
the Claude call abstracted to its optional reply: a successful reply is
stripped of whitespace and then of surrounding double and single quotes; a
failure falls back to the constant title `Focus Session`. -/
def generateSessionTitle (reply : Option (List Char)) : List Char :=
  match reply with
  | some t => pyStripChar '\'' (pyStripChar '"' (pyStrip t))
  | none => "Focus Session".data

/-- Decimal rendering of the focus percentage in the narrative fallback:
Python's `f"{x:.1f}"` on the IEEE double is modelled as rounding the
rational to one decimal digit (the percentage is nonnegative in every
use). -/
def formatOneDecimal (q : ℚ) : List Char :=
  let n : Int := round (q * 10)
  (toString (n / 10)).data ++ '.' :: (toString (n % 10)).data

/-- `SessionAnalyzer.generate_session_analysis` (analysis.py
lines 134-218) with the Claude call abstracted: on service failure the
narrative falls back to a one-line sentence built from the goal and the
focus percentage. -/
def generateSessionAnalysis (goal : List Char) (focusPct : ℚ)
    (reply : Option (List Char)) : List Char :=
  match reply with
  | some a => pyStrip a
  | none =>
    "You worked on: ".data ++ goal ++ ". Your focus percentage was ".data ++
      formatOneDecimal focusPct ++ "%.".data

/-- Session lifecycle status (`sessions.status`, database.py line 55). -/
inductive SessionStatus
  | active
  | completed
deriving DecidableEq

/-- A row of the `sessions` table (database.py lines 40-58), nullable
columns as `Option`. -/
structure Session where
  sid : String
  goal : List Char
  title : Option (List Char)
  timeStarted : Nat
  timeEnded : Option Nat
  focusPercent : ℚ
  productiveTime : Int
  notProductiveTime : Int
  nudgesReceived : Nat
  aiAnalysis : Option (List Char)
  aiStructuredOutput : Option (List (String × Int))
  status : SessionStatus
deriving DecidableEq

/-- The user aggregate row (database.py lines 29-37). -/
structure UserStats where
  averageFocusScore : ℚ
  totalFocusTime : Int
  sessionsCompleted : Nat
deriving DecidableEq

/-- The persistent store: sessions, per-session judgment and nudge rows
(tagged with their session id, in insertion order), and the user
aggregate. -/
structure Store where
  sessions : List Session
  analyses : List (String × Judg)
  nudges : List (String × List Char)
  user : UserStats
deriving DecidableEq

/-- `Database.get_session` (database.py lines 199-228). -/
def getSession (st : Store) (sid : String) : Option Session :=
  st.sessions.find? fun s => s.sid = sid

/-- `Database.get_screenshot_analyses` for one session (database.py
lines 421-440). -/
def sessionAnalyses (st : Store) (sid : String) : List Judg :=
  (st.analyses.filter fun r => r.1 = sid).map Prod.snd

/-- `Database.get_session_nudges` (database.py lines 380-398). -/
def sessionNudges (st : Store) (sid : String) : List (List Char) :=
  (st.nudges.filter fun r => r.1 = sid).map Prod.snd

/-- `Database.update_user_stats` (database.py lines 140-171): a full
recompute over completed sessions; no update when none exist. -/
def updateUserStats (st : Store) : Store :=
  let cs := st.sessions.filter fun s => s.status = SessionStatus.completed
  if cs.isEmpty then st
  else
    { st with
      user :=
        ⟨((cs.map fun s => s.focusPercent).sum) / (cs.length : ℚ),
         (cs.map fun s => s.productiveTime).sum,
         cs.length⟩ }

/-- The field update `Database.end_session` applies to the session row
(database.py lines 278-289). -/
def completeSession (now : Nat) (title : List Char) (focusPct : ℚ)
    (p np : Int) (nr : Nat) (analysis : List Char)
    (structured : List (String × Int)) (s : Session) : Session :=
  { s with
    timeEnded := some now
    title := some title
    focusPercent := focusPct
    productiveTime := p
    notProductiveTime := np
    nudgesReceived := nr
    aiAnalysis := some analysis
    aiStructuredOutput := some structured
    status := SessionStatus.completed }

/-- `Database.end_session` (database.py lines 263-306): update every row
carrying the session id, then recompute the user aggregate. -/
def endSessionDb (st : Store) (sid : String) (now : Nat) (title : List Char)
    (focusPct : ℚ) (p np : Int) (nr : Nat) (analysis : List Char)
    (structured : List (String × Int)) : Store :=
  updateUserStats
    { st with
      sessions := st.sessions.map fun s =>
        if s.sid = sid then
          completeSession now title focusPct p np nr analysis structured s
        else s }

/-- The three Claude calls of `analyze_and_end_session`, each `none` on
failure. -/
structure ServiceReplies where
  titleReply : Option (List Char)
  narrativeReply : Option (List Char)
  breakdownReply : Option (List (String × Int))
deriving DecidableEq

/-- Total AI-service outage: every call fails. -/
def allServicesDown : ServiceReplies := ⟨none, none, none⟩

/-- `SessionAnalyzer.analyze_and_end_session` (analysis.py lines 220-310):
reject a missing or non-active session; otherwise compute the metrics from
the judgment log (constant 30-second estimate for the last judgment),
generate title, narrative and distraction breakdown — each falling back
independently on service failure — write the completed row and return the
updated session. -/
def analyzeAndEndSession (st : Store) (sid : String) (svc : ServiceReplies)
    (now : Nat) : Except (List Char) (Store × Session) :=
  match getSession st sid with
  | none => Except.error ("Session ".data ++ sid.data ++ " not found".data)
  | some s =>
    if s.status ≠ SessionStatus.active then
      Except.error ("Session ".data ++ sid.data ++ " is not active".data)
    else
      let js := sessionAnalyses st sid
      let nudges := sessionNudges st sid
      let times := sessionTimes 30 js
      let pct := focusPercentage times.1 times.2
      let title := generateSessionTitle svc.titleReply
      let narrative := generateSessionAnalysis s.goal pct svc.narrativeReply
      let breakdown := (analyzeDistractions js svc.breakdownReply).1
      let st2 := endSessionDb st sid now title pct times.1 times.2
        nudges.length narrative breakdown
      match getSession st2 sid with
      | some s2 => Except.ok (st2, s2)
      | none => Except.error "session row lost".data

/-! ## Monitoring-loop cadence (`monitor.py`) -/

/-- The inter-tick sleep of `monitor_loop` (monitor.py line 227): the
source calls `time.sleep(30)`, a hardcoded constant, whatever the
configured interval. -/
def monitorSleepSeconds (screenshotInterval : Nat) : Nat := 30

/-- The wait the loop announces in the log line printed just before
sleeping (monitor.py line 226): the configured screenshot interval. -/
def announcedWaitSeconds (screenshotInterval : Nat) : Nat :=
  screenshotInterval

/-- A concrete store used to exercise the end-session operation: one active
session with one focused and one distracted judgment. -/
def outageStoreEx : Store :=
  ⟨[⟨"s1", "write a paper".data, none, 0, none, 0, 0, 0, 0, none, none,
      SessionStatus.active⟩],
   [("s1", ⟨0, true, []⟩), ("s1", ⟨30, false, []⟩)], [], ⟨0, 0, 0⟩⟩

/-! ## Lemmas and theorems -/

lemma foldl_trackerStep_rle (js : List Judg) (t0 : Nat) (f0 : Bool)
    (acc : List Interval) (now : Nat) :
    (match js.foldl trackerStep (some (t0, f0), acc) with
     | (none, closed) => closed
     | (some (t1, f1), closed) => closed ++ [⟨t1, now, f1⟩]) =
    acc ++ rleFrom t0 f0 js now := by
  induction js generalizing t0 f0 acc with
  | nil => simp [rleFrom]
  | cons j js ih =>
    by_cases h : j.focused = f0
    · have hstep : trackerStep (some (t0, f0), acc) j = (some (t0, f0), acc) := by
        simp [trackerStep, h]
      rw [List.foldl_cons, hstep, ih, rleFrom, if_pos h]
    · have hstep : trackerStep (some (t0, f0), acc) j =
          (some (j.ts, j.focused), acc ++ [⟨t0, j.ts, f0⟩]) := by
        simp [trackerStep]
        exact fun hc => absurd hc.symm h
      rw [List.foldl_cons, hstep, ih, rleFrom, if_neg h, List.append_assoc]
      rfl

lemma rleFrom_chain (js : List Judg) (t0 : Nat) (f0 : Bool) (now : Nat) :
    List.Chain' (fun a b => a.tend = b.tstart) (rleFrom t0 f0 js now) ∧
    ∀ iv ∈ (rleFrom t0 f0 js now).head?, iv.tstart = t0 := by
  induction js generalizing t0 f0 with
  | nil => simp [rleFrom]
  | cons j js ih =>
    by_cases h : j.focused = f0
    · rw [rleFrom, if_pos h]
      exact ih t0 f0
    · rw [rleFrom, if_neg h]
      refine ⟨List.chain'_cons'.mpr ⟨?_, (ih j.ts j.focused).1⟩, ?_⟩
      · intro b hb
        exact ((ih j.ts j.focused).2 b hb).symm
      · intro iv hiv
        simp only [List.head?_cons, Option.mem_def, Option.some.injEq] at hiv
        rw [← hiv]

/-- C1: for every judgment stream, the intervals persisted by the tracker
(including the final one closed at session termination with `end = now`) are
exactly the run-length encoding of the stream's focus states: one interval
per maximal run of consecutive same-state judgments, in run order, starting
at the first timestamp of its run; and consecutive intervals are contiguous
(each interval's end is the next interval's start). -/
theorem closedIntervals_eq_rle (js : List Judg) (now : Nat) :
    closedIntervals js now = rleIntervals js now ∧
    List.Chain' (fun a b => a.tend = b.tstart) (closedIntervals js now) := by
  have hmain : closedIntervals js now = rleIntervals js now := by
    cases js with
    | nil => rfl
    | cons j js =>
      have h0 : trackerStep (none, []) j = (some (j.ts, j.focused), []) := rfl
      calc closedIntervals (j :: js) now
          = (match js.foldl trackerStep (some (j.ts, j.focused), []) with
             | (none, closed) => closed
             | (some (t1, f1), closed) => closed ++ [⟨t1, now, f1⟩]) := by
            rw [closedIntervals, List.foldl_cons, h0]
        _ = [] ++ rleFrom j.ts j.focused js now :=
            foldl_trackerStep_rle js j.ts j.focused [] now
        _ = rleIntervals (j :: js) now := by rw [List.nil_append, rleIntervals]
  refine ⟨hmain, ?_⟩
  rw [hmain]
  cases js with
  | nil => simp [rleIntervals]
  | cons j js => exact (rleFrom_chain js j.ts j.focused now).1

lemma nudgeTrace_eq_spec (fs : List Bool) (st : NudgeState)
    (h : st.consecutive < consecutiveDistractionsForNudge) :
    nudgeTrace st fs = nudgeTraceSpec st.consecutive fs := by
  induction fs generalizing st with
  | nil => rfl
  | cons f fs ih =>
    cases f with
    | true =>
      have h0 : (0 : Nat) < consecutiveDistractionsForNudge := by
        simp [consecutiveDistractionsForNudge]
      simpa [nudgeTrace, nudgeTraceSpec, nudgeStep, nudgeStepSpec] using
        ih ⟨0, st.sent⟩ h0
    | false =>
      by_cases hc : consecutiveDistractionsForNudge ≤ st.consecutive + 1
      · have heq : st.consecutive + 1 = consecutiveDistractionsForNudge :=
          Nat.le_antisymm h hc
        have h0 : (0 : Nat) < consecutiveDistractionsForNudge := by
          simp [consecutiveDistractionsForNudge]
        simpa [nudgeTrace, nudgeTraceSpec, nudgeStep, nudgeStepSpec, hc, heq]
          using ih ⟨0, st.sent + 1⟩ h0
      · have hne : st.consecutive + 1 ≠ consecutiveDistractionsForNudge :=
          fun habs => hc (le_of_eq habs.symm)
        have hlt : st.consecutive + 1 < consecutiveDistractionsForNudge :=
          lt_of_le_of_ne (Nat.succ_le_of_lt h) hne
        simpa [nudgeTrace, nudgeTraceSpec, nudgeStep, nudgeStepSpec, hc, hne]
          using ih ⟨st.consecutive + 1, st.sent⟩ hlt

/-- C2: the nudge policy fires exactly one nudge at each judgment where the
count of consecutive distracted judgments since the last reset reaches the
threshold (3); the counter resets to 0 on every focused judgment and after
each nudge; and the stream `[F,F,F,F,F,F,T]` (`false` = distracted) yields
exactly 2 nudges, fired at the 3rd and the 6th distraction. -/
theorem nudgePolicy_fires_at_threshold :
    (∀ fs, nudgeTrace ⟨0, 0⟩ fs = nudgeTraceSpec 0 fs) ∧
    (∀ st, (nudgeStep st true).1.consecutive = 0) ∧
    (∀ st f, (nudgeStep st f).2 = true → (nudgeStep st f).1.consecutive = 0) ∧
    nudgeTrace ⟨0, 0⟩ [false, false, false, false, false, false, true] =
      [false, false, true, false, false, true, false] ∧
    (nudgeTrace ⟨0, 0⟩ [false, false, false, false, false, false, true]).count
      true = 2 := by
  refine ⟨fun fs => nudgeTrace_eq_spec fs ⟨0, 0⟩ (by simp [consecutiveDistractionsForNudge]),
    ?_, ?_, by decide, by decide⟩
  · intro st
    simp [nudgeStep]
  · intro st f hf
    cases f with
    | true => simp [nudgeStep]
    | false =>
      by_cases hc : consecutiveDistractionsForNudge ≤ st.consecutive + 1
      · simp [nudgeStep, hc]
      · simp [nudgeStep, hc] at hf

/-- Witness for `nudgePolicy_fires_at_threshold`: its third conjunct applied
at a counter value of 2 and a distracted judgment, where the nudge fires and
the counter resets. -/
theorem nudgePolicy_fires_at_threshold_witness :
    (nudgeStep ⟨2, 0⟩ false).1.consecutive = 0 :=
  nudgePolicy_fires_at_threshold.2.2.1 ⟨2, 0⟩ false (by decide)

/-! ## Classifier parsing lemmas -/

lemma toUpper_of_isWhitespace (c : Char) (h : c.isWhitespace = true) :
    c.toUpper = c := by
  simp [Char.isWhitespace] at h
  rcases h with ((h | h) | h) | h <;> subst h <;> decide

lemma infix_reverse_iff (l₁ l₂ : List Char) :
    l₁ <:+: l₂.reverse ↔ l₁.reverse <:+: l₂ :=
  ⟨fun h => by simpa using List.reverse_infix.mpr h,
   fun h => by simpa using List.reverse_infix.mpr h⟩

lemma infix_map_toUpper_dropWhile (c0 : Char) (cs : List Char)
    (hc0 : c0.isWhitespace = false) (l : List Char) :
    ((c0 :: cs) <:+: (l.dropWhile Char.isWhitespace).map Char.toUpper) ↔
    ((c0 :: cs) <:+: l.map Char.toUpper) := by
  induction l with
  | nil => simp
  | cons a t ih =>
    by_cases hw : a.isWhitespace
    · rw [List.dropWhile_cons, if_pos hw]
      constructor
      · intro h
        exact List.infix_cons_iff.mpr (Or.inr (ih.mp h))
      · intro h
        rcases List.infix_cons_iff.mp h with hpre | hinf
        · exfalso
          rcases List.cons_prefix_cons.mp hpre with ⟨h1, _⟩
          rw [h1, toUpper_of_isWhitespace a hw, hw] at hc0
          exact Bool.noConfusion hc0
        · exact ih.mpr hinf
    · rw [List.dropWhile_cons, if_neg hw]

lemma infix_map_toUpper_pyStrip (c0 : Char) (cs : List Char)
    (hc0 : c0.isWhitespace = false) (d0 : Char) (ds : List Char)
    (hrev : (c0 :: cs).reverse = d0 :: ds) (hd0 : d0.isWhitespace = false)
    (l : List Char) :
    ((c0 :: cs) <:+: (pyStrip l).map Char.toUpper) ↔
    ((c0 :: cs) <:+: l.map Char.toUpper) := by
  calc ((c0 :: cs) <:+: (pyStrip l).map Char.toUpper)
      ↔ ((c0 :: cs).reverse <:+:
          (List.dropWhile Char.isWhitespace
            ((l.dropWhile Char.isWhitespace).reverse)).map Char.toUpper) := by
        rw [pyStrip, List.map_reverse]
        exact infix_reverse_iff _ _
    _ ↔ ((c0 :: cs).reverse <:+:
          ((l.dropWhile Char.isWhitespace).reverse).map Char.toUpper) := by
        rw [hrev]
        exact infix_map_toUpper_dropWhile d0 ds hd0 _
    _ ↔ ((c0 :: cs) <:+:
          (l.dropWhile Char.isWhitespace).map Char.toUpper) := by
        rw [List.map_reverse]
        exact List.reverse_infix
    _ ↔ ((c0 :: cs) <:+: l.map Char.toUpper) :=
        infix_map_toUpper_dropWhile c0 cs hc0 l

lemma focused_infix_pyStrip (l : List Char) :
    ("FOCUSED".data <:+: (pyStrip l).map Char.toUpper) ↔
    ("FOCUSED".data <:+: l.map Char.toUpper) := by
  have h : "FOCUSED".data = 'F' :: "OCUSED".data := rfl
  rw [h]
  exact infix_map_toUpper_pyStrip 'F' "OCUSED".data (by decide) 'D'
    "ESUCOF".data (by decide) (by decide) l

/-- C4 (amended): the classifier marks a judgment focused exactly when the
token `FOCUSED` appears, case-insensitively, as a substring of the first line
of the whitespace-trimmed reply; and a failed vision stage (`none`), an empty
vision description, or a failed text stage (`none`) make the monitoring tick
skip persistence and tracking entirely (state unchanged, no writes) instead
of terminating. -/
theorem classifier_focused_iff :
    (∀ reply, isFocusedLabel (analyzeWithClaudeParse reply).1 = true ↔
       "FOCUSED".data <:+: ((splitOnceNL (pyStrip reply)).1.map Char.toUpper)) ∧
    (∀ st ts r, monitorTick st ts none r = (st, [])) ∧
    (∀ st ts r, monitorTick st ts (some []) r = (st, [])) ∧
    (∀ st ts d, monitorTick st ts (some d) none = (st, [])) := by
  refine ⟨?_, fun st ts r => rfl, fun st ts r => rfl, ?_⟩
  · intro reply
    rw [isFocusedLabel, decide_eq_true_iff]
    exact focused_infix_pyStrip (splitOnceNL (pyStrip reply)).1
  · intro st ts d
    by_cases hd : d.isEmpty <;> simp [monitorTick, hd]

/-- Counterexample to C4 as stated: for the reply `"\nFOCUSED"` the
classifier returns focused = true, yet `FOCUSED` does not occur in the first
line of the raw (untrimmed) reply, which is empty. -/
theorem classifier_firstLine_raw_cex :
    isFocusedLabel (analyzeWithClaudeParse "\nFOCUSED".data).1 = true ∧
    ¬ ("FOCUSED".data <:+:
        ((splitOnceNL "\nFOCUSED".data).1.map Char.toUpper)) := by
  constructor
  · decide
  · decide

/-! ## Single-line replies (C9) -/

lemma splitOnceNL_no_newline (l : List Char) (h : '\n' ∉ l) :
    splitOnceNL l = (l, none) := by
  induction l with
  | nil => rfl
  | cons c cs ih =>
    have hc : c ≠ '\n' := fun hc => h (hc ▸ List.mem_cons_self c cs)
    have hcs : '\n' ∉ cs := fun hm => h (List.mem_cons_of_mem c hm)
    simp [splitOnceNL, hc, ih hcs]

lemma pyStrip_subset (l : List Char) : pyStrip l ⊆ l := by
  intro c hc
  rw [pyStrip, List.mem_reverse] at hc
  have h1 := (List.dropWhile_sublist Char.isWhitespace).subset hc
  rw [List.mem_reverse] at h1
  exact (List.dropWhile_sublist Char.isWhitespace).subset h1

lemma mem_dropWhile_of_mem (l : List Char) (c : Char) (hc : c ∈ l)
    (hw : c.isWhitespace = false) : c ∈ l.dropWhile Char.isWhitespace := by
  rw [← List.takeWhile_append_dropWhile Char.isWhitespace l] at hc
  rcases List.mem_append.mp hc with h | h
  · rw [List.mem_takeWhile_imp h] at hw
    exact Bool.noConfusion hw
  · exact h

lemma mem_pyStrip_of_mem (l : List Char) (c : Char) (hc : c ∈ l)
    (hw : c.isWhitespace = false) : c ∈ pyStrip l := by
  rw [pyStrip, List.mem_reverse]
  exact mem_dropWhile_of_mem _ c
    (List.mem_reverse.mpr (mem_dropWhile_of_mem l c hc hw)) hw

/-- C9 (amended): when the text service's reply is non-blank and contains no
line break, the tick still persists the judgment, with explanation equal to
the empty string, and the focused flag is decided from the entire single-line
reply (case-insensitive `FOCUSED` substring test); on the successful path the
persisted explanation is always a concrete string, never a null. -/
theorem tick_single_line_reply (st : MonitorState) (ts : Nat)
    (d reply : List Char) (hd : d ≠ []) (hnl : '\n' ∉ reply)
    (hnb : ∃ c ∈ reply, c.isWhitespace = false) :
    (∃ st2 rest, monitorTick st ts (some d) (some reply) =
        (st2, DbWrite.analysisW ts
          (isFocusedLabel (analyzeWithClaudeParse reply).1) [] :: rest)) ∧
    (analyzeWithClaudeParse reply).2 = [] ∧
    (isFocusedLabel (analyzeWithClaudeParse reply).1 = true ↔
      "FOCUSED".data <:+: reply.map Char.toUpper) := by
  obtain ⟨c, hcmem, hcw⟩ := hnb
  have hnl2 : '\n' ∉ pyStrip reply := fun h => hnl (pyStrip_subset reply h)
  have hsplit : splitOnceNL (pyStrip reply) = (pyStrip reply, none) :=
    splitOnceNL_no_newline _ hnl2
  have hparse : analyzeWithClaudeParse reply =
      ((pyStrip (pyStrip reply)).map Char.toUpper, []) := by
    rw [analyzeWithClaudeParse, hsplit]
  have hcin : c ∈ pyStrip (pyStrip reply) :=
    mem_pyStrip_of_mem _ c (mem_pyStrip_of_mem reply c hcmem hcw) hcw
  have hcls : (analyzeWithClaudeParse reply).1.isEmpty = false := by
    rw [hparse]
    refine List.isEmpty_eq_false.mpr (fun habs => ?_)
    have h2 : pyStrip (pyStrip reply) = [] := by
      have h3 : (pyStrip (pyStrip reply)).map Char.toUpper = [] := habs
      simpa using h3
    rw [h2] at hcin
    exact absurd hcin (List.not_mem_nil c)
  have hde : d.isEmpty = false := List.isEmpty_eq_false.mpr hd
  have hcls2 : ((pyStrip (pyStrip reply)).map Char.toUpper).isEmpty = false := by
    have h := hcls
    rw [hparse] at h
    exact h
  refine ⟨?_, by rw [hparse], ?_⟩
  · simp only [monitorTick, hde, hparse, hcls2, Bool.false_eq_true, if_false,
      List.cons_append, List.nil_append]
    exact ⟨_, _, rfl⟩
  · rw [isFocusedLabel, decide_eq_true_iff, hparse]
    calc ("FOCUSED".data <:+: (pyStrip (pyStrip reply)).map Char.toUpper)
        ↔ ("FOCUSED".data <:+: (pyStrip reply).map Char.toUpper) :=
          focused_infix_pyStrip (pyStrip reply)
      _ ↔ ("FOCUSED".data <:+: reply.map Char.toUpper) :=
          focused_infix_pyStrip reply

/-- Witness for `tick_single_line_reply`: the single-line reply `"FOCUSED"`
is persisted with an empty explanation and focused = true. -/
theorem tick_single_line_reply_witness :
    (∃ st2 rest, monitorTick initialMonitorState 0 (some "d".data)
        (some "FOCUSED".data) =
        (st2, DbWrite.analysisW 0
          (isFocusedLabel (analyzeWithClaudeParse "FOCUSED".data).1)
          [] :: rest)) ∧
    (analyzeWithClaudeParse "FOCUSED".data).2 = [] ∧
    (isFocusedLabel (analyzeWithClaudeParse "FOCUSED".data).1 = true ↔
      "FOCUSED".data <:+: "FOCUSED".data.map Char.toUpper) :=
  tick_single_line_reply initialMonitorState 0 "d".data "FOCUSED".data
    (by decide) (by decide) ⟨'F', by decide, by decide⟩

/-- Counterexample to C9 as stated: the empty reply contains no line break,
yet the tick persists nothing (Python's `if classification:` is false for the
empty string), leaving the state untouched. -/
theorem tick_empty_reply_cex :
    monitorTick initialMonitorState 0 (some "d".data) (some []) =
      (initialMonitorState, []) ∧
    '\n' ∉ ([] : List Char) := by
  constructor
  · rfl
  · simp

lemma judgDurations_length (e : Int) :
    ∀ js : List Judg, (judgDurations e js).length = js.length
  | [] => rfl
  | [_] => rfl
  | _ :: b :: rest => by
    rw [judgDurations, List.length_cons, judgDurations_length e (b :: rest)]
    rfl

lemma judgDurations_get_mid (e : Int) :
    ∀ (js : List Judg) (i : Nat), i + 1 < js.length →
      ∃ a b, js[i]? = some a ∧ js[i + 1]? = some b ∧
        (judgDurations e js)[i]? =
          some ((b.ts : Int) - (a.ts : Int), a.focused)
  | [], i, h => by simp at h
  | [a], i, h => by simp at h
  | a :: b :: rest, 0, _ => ⟨a, b, by simp, by simp, by rw [judgDurations]; simp⟩
  | a :: b :: rest, i + 1, h => by
    have hlt : i + 1 < (b :: rest).length := by
      simpa [Nat.succ_lt_succ_iff] using h
    obtain ⟨x, y, hx, hy, hd⟩ := judgDurations_get_mid e (b :: rest) i hlt
    exact ⟨x, y, by simpa using hx, by simpa using hy,
      by rw [judgDurations]; simpa using hd⟩

lemma getLast?_cons_of_ne_nil {α : Type} (d : α) {l : List α} (h : l ≠ []) :
    (d :: l).getLast? = l.getLast? := by
  cases l with
  | nil => exact absurd rfl h
  | cons x xs => exact List.getLast?_cons_cons

lemma judgDurations_getLast (e : Int) :
    ∀ js : List Judg, js ≠ [] →
      ∃ a, js.getLast? = some a ∧
        (judgDurations e js).getLast? = some (e, a.focused)
  | [], h => absurd rfl h
  | [a], _ => ⟨a, rfl, rfl⟩
  | a :: b :: rest, _ => by
    obtain ⟨x, hx, hd⟩ :=
      judgDurations_getLast e (b :: rest) (List.cons_ne_nil b rest)
    have hne : judgDurations e (b :: rest) ≠ [] := by
      intro habs
      have := judgDurations_length e (b :: rest)
      rw [habs] at this
      simp at this
    refine ⟨x, by rw [List.getLast?_cons_cons]; exact hx, ?_⟩
    rw [judgDurations, getLast?_cons_of_ne_nil _ hne]
    exact hd

lemma sessionTimes_foldl (l : List (Int × Bool)) :
    ∀ acc : Int × Int,
      (l.foldl
        (fun acc d => if d.2 then (acc.1 + d.1, acc.2) else (acc.1, acc.2 + d.1))
        acc) =
      (acc.1 + ((l.filter fun d => d.2).map Prod.fst).sum,
       acc.2 + ((l.filter fun d => !d.2).map Prod.fst).sum) := by
  induction l with
  | nil => intro acc; simp
  | cons d l ih =>
    intro acc
    cases hd : d.2 with
    | true => simp [List.foldl_cons, hd, ih, add_assoc]
    | false => simp [List.foldl_cons, hd, ih, add_assoc]

lemma sessionTimes_eq (e : Int) (js : List Judg) :
    sessionTimes e js =
      ((((judgDurations e js).filter fun d => d.2).map Prod.fst).sum,
       (((judgDurations e js).filter fun d => !d.2).map Prod.fst).sum) := by
  rw [sessionTimes, sessionTimes_foldl]
  simp

lemma filter_map_sum_split (l : List (Int × Bool)) :
    ((l.filter fun d => d.2).map Prod.fst).sum +
      ((l.filter fun d => !d.2).map Prod.fst).sum =
    (l.map Prod.fst).sum := by
  induction l with
  | nil => simp
  | cons d l ih =>
    cases hd : d.2 with
    | true => simp [List.filter_cons, hd, ← ih]; ring
    | false => simp [List.filter_cons, hd, ← ih]; ring

lemma judgDurations_nonneg (e : Int) (he : 0 ≤ e) :
    ∀ js : List Judg, List.Chain' (fun a b => a.ts ≤ b.ts) js →
      ∀ d ∈ judgDurations e js, 0 ≤ d.1
  | [], _, d, hd => by simp [judgDurations] at hd
  | [a], _, d, hd => by
    rw [judgDurations] at hd
    simp at hd
    rw [hd]
    exact he
  | a :: b :: rest, hchain, d, hd => by
    rw [judgDurations] at hd
    rcases List.mem_cons.mp hd with h | h
    · rw [h]
      have hab : a.ts ≤ b.ts := (List.chain'_cons.mp hchain).1
      simp only
      omega
    · exact judgDurations_nonneg e he (b :: rest)
        (List.chain'_cons.mp hchain).2 d h

lemma mem_of_getLast?_eq_some {α : Type} :
    ∀ {l : List α} {a : α}, l.getLast? = some a → a ∈ l
  | [], a, h => by simp at h
  | [x], a, h => by
    simp [List.getLast?_singleton] at h
    simp [h]
  | x :: y :: rest, a, h => by
    rw [List.getLast?_cons_cons] at h
    exact List.mem_cons_of_mem x (mem_of_getLast?_eq_some h)

/-- C3 (amended): per-judgment durations are the gaps to the successor
judgment, with the last judgment assigned the fixed estimate (the sampling
interval when positive, else 30); productive plus not-productive time equals
the sum of all inferred durations; the focus percentage equals
`productive / (productive + not_productive) * 100`, is 0 for an empty
judgment list, and lies in `[0, 100]` for every nonempty
timestamp-ordered judgment list (it is 0 when no judgment is focused). -/
theorem sessionSummary_spec (si : Nat) (js : List Judg)
    (nudges : List (List Char)) :
    ((judgDurations (lastDurationEstimate si) js).length = js.length) ∧
    (∀ i, i + 1 < js.length → ∃ a b, js[i]? = some a ∧ js[i + 1]? = some b ∧
        (judgDurations (lastDurationEstimate si) js)[i]? =
          some ((b.ts : Int) - (a.ts : Int), a.focused)) ∧
    (js ≠ [] → ∃ a, js.getLast? = some a ∧
        (judgDurations (lastDurationEstimate si) js).getLast? =
          some (lastDurationEstimate si, a.focused)) ∧
    ((sessionTimes (lastDurationEstimate si) js).1 +
        (sessionTimes (lastDurationEstimate si) js).2 =
      ((judgDurations (lastDurationEstimate si) js).map Prod.fst).sum) ∧
    ((getSessionSummary si [] nudges).focusPercent = 0) ∧
    (∀ p np : Int, 0 < p + np →
        focusPercentage p np = (p : ℚ) / ((p + np : Int) : ℚ) * 100) ∧
    (List.Chain' (fun a b => a.ts ≤ b.ts) js → js ≠ [] →
        0 ≤ (getSessionSummary si js nudges).focusPercent ∧
          (getSessionSummary si js nudges).focusPercent ≤ 100) := by
  have htot : (sessionTimes (lastDurationEstimate si) js).1 +
      (sessionTimes (lastDurationEstimate si) js).2 =
      ((judgDurations (lastDurationEstimate si) js).map Prod.fst).sum := by
    rw [sessionTimes_eq]
    exact filter_map_sum_split _
  refine ⟨judgDurations_length _ js, judgDurations_get_mid _ js,
    judgDurations_getLast _ js, htot, rfl,
    fun p np h => by rw [focusPercentage, if_pos h], ?_⟩
  intro hchain hne
  have he : 0 < lastDurationEstimate si := by
    rw [lastDurationEstimate]
    split <;> omega
  set e := lastDurationEstimate si with he_def
  have hjsne : js.isEmpty = false := List.isEmpty_eq_false.mpr hne
  have hnn : ∀ d ∈ judgDurations e js, 0 ≤ d.1 :=
    judgDurations_nonneg e he.le js hchain
  have hsub1 : ∀ x ∈ ((judgDurations e js).filter fun d => d.2).map Prod.fst,
      (0 : Int) ≤ x := by
    intro x hx
    obtain ⟨d, hd, rfl⟩ := List.mem_map.mp hx
    exact hnn d (List.mem_filter.mp hd).1
  have hsub2 : ∀ x ∈ ((judgDurations e js).filter fun d => !d.2).map Prod.fst,
      (0 : Int) ≤ x := by
    intro x hx
    obtain ⟨d, hd, rfl⟩ := List.mem_map.mp hx
    exact hnn d (List.mem_filter.mp hd).1
  have hp0 : 0 ≤ (sessionTimes e js).1 := by
    rw [sessionTimes_eq]
    exact List.sum_nonneg hsub1
  have hnp0 : 0 ≤ (sessionTimes e js).2 := by
    rw [sessionTimes_eq]
    exact List.sum_nonneg hsub2
  have hmem : e ∈ (judgDurations e js).map Prod.fst := by
    obtain ⟨a, _, hd⟩ := judgDurations_getLast e js hne
    exact List.mem_map.mpr ⟨(e, a.focused), mem_of_getLast?_eq_some hd, rfl⟩
  have htotpos : 0 < (sessionTimes e js).1 + (sessionTimes e js).2 := by
    rw [htot]
    refine lt_of_lt_of_le he (List.single_le_sum ?_ e hmem)
    intro x hx
    obtain ⟨d, hd, rfl⟩ := List.mem_map.mp hx
    exact hnn d hd
  have hgoal : (getSessionSummary si js nudges).focusPercent =
      focusPercentage (sessionTimes e js).1 (sessionTimes e js).2 := by
    rw [getSessionSummary, hjsne]
    rfl
  rw [hgoal, focusPercentage, if_pos htotpos]
  have htq : (0 : ℚ) <
      (((sessionTimes e js).1 + (sessionTimes e js).2 : Int) : ℚ) := by
    exact_mod_cast htotpos
  have hpq : (0 : ℚ) ≤ ((sessionTimes e js).1 : ℚ) := by exact_mod_cast hp0
  constructor
  · exact mul_nonneg (div_nonneg hpq htq.le) (by norm_num)
  · have hple : ((sessionTimes e js).1 : ℚ) ≤
        (((sessionTimes e js).1 + (sessionTimes e js).2 : Int) : ℚ) := by
      exact_mod_cast (by omega : (sessionTimes e js).1 ≤
        (sessionTimes e js).1 + (sessionTimes e js).2)
    have hdiv : ((sessionTimes e js).1 : ℚ) /
        (((sessionTimes e js).1 + (sessionTimes e js).2 : Int) : ℚ) ≤ 1 :=
      (div_le_one htq).mpr hple
    calc ((sessionTimes e js).1 : ℚ) /
          (((sessionTimes e js).1 + (sessionTimes e js).2 : Int) : ℚ) * 100
        ≤ 1 * 100 := by
          exact mul_le_mul_of_nonneg_right hdiv (by norm_num)
      _ = 100 := one_mul 100

/-- Witness for `sessionSummary_spec`: for the two-judgment session
`[(ts 0, focused), (ts 30, distracted)]` with interval 30, the first
duration is the 30-second gap and the focus percentage is within
`[0, 100]`. -/
theorem sessionSummary_spec_witness :
    (∃ a b, ([Judg.mk 0 true [], Judg.mk 30 false []])[0]? = some a ∧
      ([Judg.mk 0 true [], Judg.mk 30 false []])[0 + 1]? = some b ∧
      (judgDurations (lastDurationEstimate 30)
        [Judg.mk 0 true [], Judg.mk 30 false []])[0]? =
        some ((b.ts : Int) - (a.ts : Int), a.focused)) ∧
    (0 ≤ (getSessionSummary 30 [Judg.mk 0 true [], Judg.mk 30 false []]
        []).focusPercent ∧
      (getSessionSummary 30 [Judg.mk 0 true [], Judg.mk 30 false []]
        []).focusPercent ≤ 100) :=
  ⟨(sessionSummary_spec 30 [Judg.mk 0 true [], Judg.mk 30 false []] []).2.1 0
      (by decide),
   (sessionSummary_spec 30 [Judg.mk 0 true [], Judg.mk 30 false []]
      []).2.2.2.2.2.2 (by simp [List.chain'_cons]) (by decide)⟩

/-- Counterexample to C3 as stated: a session with exactly one judgment,
which is distracted, has focus percentage 0, outside the claimed interval
`(0, 100]`. -/
theorem sessionSummary_percentage_cex :
    ([Judg.mk 0 false []] : List Judg).length = 1 ∧
    (getSessionSummary 30 [Judg.mk 0 false []] []).focusPercent = 0 ∧
    ¬ (0 < (getSessionSummary 30 [Judg.mk 0 false []] []).focusPercent) := by
  have hval : (getSessionSummary 30 [Judg.mk 0 false []] []).focusPercent = 0 := by
    norm_num [getSessionSummary, sessionTimes, judgDurations, focusPercentage,
      lastDurationEstimate]
  exact ⟨rfl, hval, by rw [hval]; norm_num⟩

lemma timeDiffs_length : ∀ (a : Judg) (rest : List Judg),
    (timeDiffs (a :: rest)).length = rest.length
  | _, [] => rfl
  | _, b :: rest2 => by
    rw [timeDiffs, List.length_cons, timeDiffs_length b rest2, List.length_cons]

lemma timeDiffs_sum : ∀ (rest : List Judg) (a : Judg),
    ∃ b, (a :: rest).getLast? = some b ∧
      (timeDiffs (a :: rest)).sum = (b.ts : ℚ) - (a.ts : ℚ)
  | [], a => ⟨a, rfl, by simp [timeDiffs]⟩
  | c :: rest2, a => by
    obtain ⟨b, hb, hs⟩ := timeDiffs_sum rest2 c
    refine ⟨b, by rw [List.getLast?_cons_cons]; exact hb, ?_⟩
    rw [timeDiffs, List.sum_cons, hs]
    ring

lemma timeDiffs_congr : ∀ (js js2 : List Judg),
    js.map Judg.ts = js2.map Judg.ts → timeDiffs js = timeDiffs js2
  | [], [], _ => rfl
  | [], _ :: _, h => by simp at h
  | _ :: _, [], h => by simp at h
  | [_], [_], _ => rfl
  | [_], _ :: _ :: _, h => by simp at h
  | _ :: _ :: _, [_], h => by simp at h
  | a :: b :: r, a2 :: b2 :: r2, h => by
    simp only [List.map_cons, List.cons.injEq] at h
    obtain ⟨h1, h2, h3⟩ := h
    rw [timeDiffs, timeDiffs, h1, h2,
      timeDiffs_congr (b :: r) (b2 :: r2) (by simp [h2, h3])]

lemma analyzeDistractions_none_of_empty (js : List Judg)
    (service : Option (List (String × Int)))
    (h : (js.filter fun a => !a.focused) = []) :
    analyzeDistractions js service = ([], false) := by
  simp only [analyzeDistractions, h, List.isEmpty_nil, if_true]

lemma analyzeDistractions_fallback_eq (js : List Judg)
    (hne : (js.filter fun a => !a.focused) ≠ []) :
    analyzeDistractions js none =
      ([("General distraction",
          ((js.filter fun a => !a.focused).length : Int) *
            pyInt (avgInterval js))], true) := by
  simp only [analyzeDistractions, List.isEmpty_eq_false.mpr hne,
    Bool.false_eq_true, if_false]

/-- C10: the average inter-sample interval of the distraction-breakdown
step is a function of all the session's judgment timestamps alone (focused
and distracted judgments alike): it is 30 when the session has fewer than two
judgments and otherwise the telescoped mean
`(last timestamp - first timestamp) / (number of gaps)`; the fallback bucket
multiplies the distracted count by its truncation. -/
theorem avgInterval_spec :
    (∀ js : List Judg, js.length < 2 → avgInterval js = 30) ∧
    (∀ js js2 : List Judg, js.map Judg.ts = js2.map Judg.ts →
        avgInterval js = avgInterval js2) ∧
    (∀ (a : Judg) (rest : List Judg), rest ≠ [] →
        ∃ b, (a :: rest).getLast? = some b ∧
          avgInterval (a :: rest) =
            ((b.ts : ℚ) - (a.ts : ℚ)) / (rest.length : ℚ)) ∧
    (∀ js : List Judg, (js.filter fun a => !a.focused) ≠ [] →
        analyzeDistractions js none =
          ([("General distraction",
              ((js.filter fun a => !a.focused).length : Int) *
                pyInt (avgInterval js))], true)) := by
  refine ⟨?_, ?_, ?_, ?_⟩
  · intro js h
    rw [avgInterval, if_neg (by omega)]
  · intro js js2 h
    have hlen : js.length = js2.length := by
      have := congrArg List.length h
      simpa using this
    rw [avgInterval, avgInterval, hlen, timeDiffs_congr js js2 h]
  · intro a rest hne
    obtain ⟨b, hb, hs⟩ := timeDiffs_sum rest a
    refine ⟨b, hb, ?_⟩
    have hlen2 : 1 < (a :: rest).length := by
      cases rest with
      | nil => exact absurd rfl hne
      | cons c r => simp
    have hdne : (timeDiffs (a :: rest)).isEmpty = false := by
      rw [List.isEmpty_eq_false]
      intro habs
      have := timeDiffs_length a rest
      rw [habs] at this
      cases rest with
      | nil => exact absurd rfl hne
      | cons c r => simp at this
    rw [avgInterval, if_pos hlen2]
    simp only [hdne, Bool.false_eq_true, if_false]
    rw [hs, timeDiffs_length a rest]
  · exact analyzeDistractions_fallback_eq

/-- Witness for `avgInterval_spec`: the empty session defaults to 30; two
sessions whose judgments share timestamps but differ in focus flags get the
same average; a three-judgment session at 0, 30, 61 seconds averages
`61 / 2`; and a fully distracted such session falls back to a single
`3 * 30`-second bucket. -/
theorem avgInterval_spec_witness :
    avgInterval [] = 30 ∧
    avgInterval [Judg.mk 5 true []] = avgInterval [Judg.mk 5 false []] ∧
    (∃ b, ([Judg.mk 0 false [], Judg.mk 30 false [], Judg.mk 61 false
        []]).getLast? = some b ∧
      avgInterval [Judg.mk 0 false [], Judg.mk 30 false [], Judg.mk 61 false
        []] = ((b.ts : ℚ) - ((0 : Nat) : ℚ)) / ((2 : Nat) : ℚ)) ∧
    analyzeDistractions
        [Judg.mk 0 false [], Judg.mk 30 false [], Judg.mk 61 false []] none =
      ([("General distraction",
          (([Judg.mk 0 false [], Judg.mk 30 false [], Judg.mk 61 false
            []].filter fun a => !a.focused).length : Int) *
            pyInt (avgInterval [Judg.mk 0 false [], Judg.mk 30 false [],
              Judg.mk 61 false []]))], true) :=
  ⟨avgInterval_spec.1 [] (by decide),
   avgInterval_spec.2.1 [Judg.mk 5 true []] [Judg.mk 5 false []] (by decide),
   avgInterval_spec.2.2.1 (Judg.mk 0 false [])
     [Judg.mk 30 false [], Judg.mk 61 false []] (by decide),
   avgInterval_spec.2.2.2
     [Judg.mk 0 false [], Judg.mk 30 false [], Judg.mk 61 false []]
     (by decide)⟩

/-- C5 (amended): with zero distracted judgments the breakdown step returns
the empty mapping without invoking the text service; with distracted
judgments present and a failed service call (or unparseable reply) it
returns exactly the single bucket
`General distraction ↦ count(distracted) × (average_interval truncated to an
integer)`. -/
theorem analyzeDistractions_fallback (js : List Judg)
    (service : Option (List (String × Int))) :
    ((js.filter fun a => !a.focused) = [] →
      analyzeDistractions js service = ([], false)) ∧
    ((js.filter fun a => !a.focused) ≠ [] →
      analyzeDistractions js none =
        ([("General distraction",
            ((js.filter fun a => !a.focused).length : Int) *
              pyInt (avgInterval js))], true)) :=
  ⟨analyzeDistractions_none_of_empty js service,
   analyzeDistractions_fallback_eq js⟩

/-- Witness for `analyzeDistractions_fallback`: a fully focused session
yields the empty mapping with the service never invoked; a single
distracted judgment yields the one-bucket fallback. -/
theorem analyzeDistractions_fallback_witness :
    analyzeDistractions [Judg.mk 0 true []] (some [("Email", 60)]) =
      ([], false) ∧
    analyzeDistractions [Judg.mk 0 false []] none =
      ([("General distraction",
          (([Judg.mk 0 false []].filter fun a => !a.focused).length : Int) *
            pyInt (avgInterval [Judg.mk 0 false []]))], true) :=
  ⟨(analyzeDistractions_fallback [Judg.mk 0 true []]
      (some [("Email", 60)])).1 (by decide),
   (analyzeDistractions_fallback [Judg.mk 0 false []] none).2 (by decide)⟩

/-- Counterexample to C5 as stated: four distracted judgments at 0, 30, 60
and 92 seconds give an average interval of 92/3 ≈ 30.67s; the source
multiplies the count by the truncated average (4 × 30 = 120), which matches
neither the product rounded to an integer (round(4 × 92/3) = 123) nor the
count times the rounded average (4 × round(92/3) = 124). -/
theorem analyzeDistractions_rounding_cex :
    analyzeDistractions
        [Judg.mk 0 false [], Judg.mk 30 false [], Judg.mk 60 false [],
          Judg.mk 92 false []] none =
      ([("General distraction", 120)], true) ∧
    round ((([Judg.mk 0 false [], Judg.mk 30 false [], Judg.mk 60 false [],
        Judg.mk 92 false []].filter fun a => !a.focused).length : ℚ) *
        avgInterval
          [Judg.mk 0 false [], Judg.mk 30 false [], Judg.mk 60 false [],
            Judg.mk 92 false []]) =
      (123 : Int) ∧
    (4 : Int) * round (avgInterval
        [Judg.mk 0 false [], Judg.mk 30 false [], Judg.mk 60 false [],
          Judg.mk 92 false []]) =
      (124 : Int) ∧
    (120 : Int) ≠ 123 ∧ (120 : Int) ≠ 124 := by
  have havg : avgInterval
      [Judg.mk 0 false [], Judg.mk 30 false [], Judg.mk 60 false [],
        Judg.mk 92 false []] =
      92 / 3 := by
    norm_num [avgInterval, timeDiffs]
  have hfilter : ([Judg.mk 0 false [], Judg.mk 30 false [], Judg.mk 60 false
      [], Judg.mk 92 false []].filter fun a => !a.focused) =
      [Judg.mk 0 false [], Judg.mk 30 false [], Judg.mk 60 false [],
        Judg.mk 92 false []] := by
    decide
  have hpy : pyInt ((92 : ℚ) / 3) = 30 := by
    rw [pyInt, if_pos (by norm_num)]
    rw [Int.floor_eq_iff]
    norm_num
  have hround : round ((92 : ℚ) / 3) = 31 := by
    rw [round_eq]
    norm_num
  refine ⟨?_, ?_, ?_, by decide, by decide⟩
  · rw [analyzeDistractions_fallback_eq _ (by rw [hfilter]; simp), hfilter,
      havg, hpy]
    norm_num
  · rw [hfilter, havg, round_eq]
    norm_num
  · rw [havg, hround]
    norm_num

lemma find?_map_update (sid : String) (f : Session → Session)
    (hf : ∀ s, (f s).sid = s.sid) :
    ∀ l : List Session,
      ((l.map fun s => if s.sid = sid then f s else s).find?
          fun s => s.sid = sid) =
        (l.find? fun s => s.sid = sid).map f := by
  intro l
  induction l with
  | nil => rfl
  | cons s l ih =>
    by_cases hs : s.sid = sid
    · rw [List.map_cons, if_pos hs,
        List.find?_cons_of_pos _ (by simp [hf s, hs]),
        List.find?_cons_of_pos _ (by simp [hs]), Option.map_some']
    · rw [List.map_cons, if_neg hs,
        List.find?_cons_of_neg _ (by simp [hs]),
        List.find?_cons_of_neg _ (by simp [hs]), ih]

lemma getSession_updateUserStats (st : Store) (sid : String) :
    getSession (updateUserStats st) sid = getSession st sid := by
  rw [updateUserStats, getSession]
  split <;> rfl

lemma getSession_endSessionDb (st : Store) (sid : String) (now : Nat)
    (title : List Char) (focusPct : ℚ) (p np : Int) (nr : Nat)
    (analysis : List Char) (structured : List (String × Int)) :
    getSession
        (endSessionDb st sid now title focusPct p np nr analysis structured)
        sid =
      (getSession st sid).map
        (completeSession now title focusPct p np nr analysis structured) := by
  rw [endSessionDb, getSession_updateUserStats, getSession, getSession]
  exact find?_map_update sid
    (completeSession now title focusPct p np nr analysis structured)
    (fun s => rfl) st.sessions

lemma getSession_sid {st : Store} {sid : String} {s : Session}
    (h : getSession st sid = some s) : s.sid = sid := by
  have := List.find?_some h
  exact of_decide_eq_true this

/-- C7: the aggregator's end operation fails on a nonexistent session and on
a session that is not active (in particular on one already completed); when
it succeeds, the stored and returned session is completed, and a second end
of the same session is rejected — the active→completed transition happens
exactly once. -/
theorem endSession_active_to_completed_once :
    (∀ (st : Store) (sid : String) (svc : ServiceReplies) (now : Nat),
      getSession st sid = none →
        analyzeAndEndSession st sid svc now =
          Except.error ("Session ".data ++ sid.data ++ " not found".data)) ∧
    (∀ (st : Store) (sid : String) (svc : ServiceReplies) (now : Nat)
        (s : Session),
      getSession st sid = some s → s.status ≠ SessionStatus.active →
        analyzeAndEndSession st sid svc now =
          Except.error ("Session ".data ++ sid.data ++ " is not active".data)) ∧
    (∀ (st : Store) (sid : String) (svc : ServiceReplies) (now : Nat)
        (s : Session),
      getSession st sid = some s → s.status = SessionStatus.active →
        ∃ st2 s2, analyzeAndEndSession st sid svc now = Except.ok (st2, s2) ∧
          s2.status = SessionStatus.completed ∧
          getSession st2 sid = some s2 ∧
          ∀ (svc2 : ServiceReplies) (now2 : Nat),
            analyzeAndEndSession st2 sid svc2 now2 =
              Except.error
                ("Session ".data ++ sid.data ++ " is not active".data)) := by
  refine ⟨?_, ?_, ?_⟩
  · intro st sid svc now h
    rw [analyzeAndEndSession, h]
  · intro st sid svc now s hget hstat
    rw [analyzeAndEndSession, hget]
    simp only [if_pos hstat]
  · intro st sid svc now s hget hstat
    have hstat2 : ¬ s.status ≠ SessionStatus.active := by simp [hstat]
    have hupd := getSession_endSessionDb st sid now
      (generateSessionTitle svc.titleReply)
      (focusPercentage (sessionTimes 30 (sessionAnalyses st sid)).1
        (sessionTimes 30 (sessionAnalyses st sid)).2)
      (sessionTimes 30 (sessionAnalyses st sid)).1
      (sessionTimes 30 (sessionAnalyses st sid)).2
      (sessionNudges st sid).length
      (generateSessionAnalysis s.goal
        (focusPercentage (sessionTimes 30 (sessionAnalyses st sid)).1
          (sessionTimes 30 (sessionAnalyses st sid)).2) svc.narrativeReply)
      (analyzeDistractions (sessionAnalyses st sid) svc.breakdownReply).1
    rw [hget, Option.map_some'] at hupd
    refine ⟨_, _, ?_, rfl, hupd, ?_⟩
    · rw [analyzeAndEndSession, hget]
      simp only [hstat2, if_false]
      rw [hupd]
    · intro svc2 now2
      rw [analyzeAndEndSession, hupd]
      simp only [completeSession]
      rw [if_pos (by simp)]

/-- Witness for `endSession_active_to_completed_once`: on a store with one
active session `s1`, ending a missing id errors, and ending `s1` succeeds
with a completed row; on a store whose only session is completed, ending it
errors. -/
theorem endSession_active_to_completed_once_witness :
    (analyzeAndEndSession
        (Store.mk [] [] [] (UserStats.mk 0 0 0)) "x" allServicesDown 0 =
      Except.error ("Session ".data ++ "x".data ++ " not found".data)) ∧
    (analyzeAndEndSession
        (Store.mk [Session.mk "s1" "g".data none 0 none 0 0 0 0 none none
          SessionStatus.completed] [] [] (UserStats.mk 0 0 0)) "s1"
        allServicesDown 0 =
      Except.error ("Session ".data ++ "s1".data ++ " is not active".data)) ∧
    (∃ st2 s2, analyzeAndEndSession
        (Store.mk [Session.mk "s1" "g".data none 0 none 0 0 0 0 none none
          SessionStatus.active] [] [] (UserStats.mk 0 0 0)) "s1"
        allServicesDown 0 = Except.ok (st2, s2) ∧
      s2.status = SessionStatus.completed ∧
      getSession st2 "s1" = some s2 ∧
      ∀ (svc2 : ServiceReplies) (now2 : Nat),
        analyzeAndEndSession st2 "s1" svc2 now2 =
          Except.error
            ("Session ".data ++ "s1".data ++ " is not active".data)) :=
  ⟨endSession_active_to_completed_once.1 _ "x" allServicesDown 0 rfl,
   endSession_active_to_completed_once.2.1 _ "s1" allServicesDown 0 _ rfl
     (by decide),
   endSession_active_to_completed_once.2.2 _ "s1" allServicesDown 0 _ rfl
     rfl⟩

/-- C6: for every active session, ending it succeeds even under total
AI-service outage: the completed row is written and returned with the
constant fallback title `Focus Session`, the templated one-line fallback
narrative built from the goal and the focus percentage, and the computed
focus percentage — none of these fields is null. -/
theorem endSession_total_outage (st : Store) (sid : String) (now : Nat)
    (s : Session) (hget : getSession st sid = some s)
    (hact : s.status = SessionStatus.active) :
    ∃ st2 s2,
      analyzeAndEndSession st sid allServicesDown now =
        Except.ok (st2, s2) ∧
      s2.status = SessionStatus.completed ∧
      s2.title = some "Focus Session".data ∧
      s2.aiAnalysis = some ("You worked on: ".data ++ s.goal ++
        ". Your focus percentage was ".data ++
        formatOneDecimal
          (focusPercentage (sessionTimes 30 (sessionAnalyses st sid)).1
            (sessionTimes 30 (sessionAnalyses st sid)).2) ++ "%.".data) ∧
      s2.focusPercent =
        focusPercentage (sessionTimes 30 (sessionAnalyses st sid)).1
          (sessionTimes 30 (sessionAnalyses st sid)).2 ∧
      getSession st2 sid = some s2 := by
  have hstat2 : ¬ s.status ≠ SessionStatus.active := by simp [hact]
  have hupd := getSession_endSessionDb st sid now
    (generateSessionTitle none)
    (focusPercentage (sessionTimes 30 (sessionAnalyses st sid)).1
      (sessionTimes 30 (sessionAnalyses st sid)).2)
    (sessionTimes 30 (sessionAnalyses st sid)).1
    (sessionTimes 30 (sessionAnalyses st sid)).2
    (sessionNudges st sid).length
    (generateSessionAnalysis s.goal
      (focusPercentage (sessionTimes 30 (sessionAnalyses st sid)).1
        (sessionTimes 30 (sessionAnalyses st sid)).2) none)
    (analyzeDistractions (sessionAnalyses st sid) none).1
  rw [hget, Option.map_some'] at hupd
  refine ⟨_, _, ?_, rfl, rfl, ?_, rfl, hupd⟩
  · rw [analyzeAndEndSession, hget]
    simp only [allServicesDown, hstat2, if_false]
    rw [hupd]
  · simp [completeSession, generateSessionAnalysis]

/-- Witness for `endSession_total_outage`: on `outageStoreEx`, with every
service call failing, the end operation still yields a completed session
with the fallback title and narrative. -/
theorem endSession_total_outage_witness :
    ∃ st2 s2,
      analyzeAndEndSession outageStoreEx "s1" allServicesDown 100 =
        Except.ok (st2, s2) ∧
      s2.status = SessionStatus.completed ∧
      s2.title = some "Focus Session".data ∧
      s2.aiAnalysis = some ("You worked on: ".data ++
        "write a paper".data ++
        ". Your focus percentage was ".data ++
        formatOneDecimal
          (focusPercentage
            (sessionTimes 30 (sessionAnalyses outageStoreEx "s1")).1
            (sessionTimes 30 (sessionAnalyses outageStoreEx "s1")).2) ++
        "%.".data) ∧
      s2.focusPercent =
        focusPercentage
          (sessionTimes 30 (sessionAnalyses outageStoreEx "s1")).1
          (sessionTimes 30 (sessionAnalyses outageStoreEx "s1")).2 ∧
      getSession st2 "s1" = some s2 :=
  endSession_total_outage outageStoreEx "s1" 100
    ⟨"s1", "write a paper".data, none, 0, none, 0, 0, 0, 0, none, none,
      SessionStatus.active⟩ rfl rfl

/-- C8 (code behaviour at the failing input): the loop's inter-tick sleep is
the hardcoded constant 30 for every configured interval, so for the
configured interval 10 it sleeps 30 seconds while the adjacent log line
announces a 10-second wait — the cadence does not equal the configured
sampling interval. -/
theorem monitorSleep_hardcoded :
    (∀ si : Nat, monitorSleepSeconds si = 30) ∧
    monitorSleepSeconds 10 = 30 ∧
    announcedWaitSeconds 10 = 10 ∧
    monitorSleepSeconds 10 ≠ announcedWaitSeconds 10 :=
  ⟨fun _ => rfl, rfl, rfl, by decide⟩

end Attune
